import Mathlib

/-!
Verification development for the ATFi event-commitment backend.

The repository has two coexisting implementations:
* a Node.js side (`src/models/EventMetadata.js`, `src/models/EventOnchain.js`,
  `src/models/Event.js`, `src/services/databaseService.js`,
  `src/controllers/eventController.js`), embedded below in namespace `ATFi.JS`;
* a Go side (`handlers` package: event, user and check-in handlers),
  embedded in namespace `ATFi.Go`.

Database tables are embedded as lists of row structures; a SQL statement
becomes a pure function on those lists.  Wall-clock instants (Unix seconds,
`Date.now()`, `time.Now()`) are passed in as explicit `Int` parameters; ISO
timestamp strings stored in `updated_at`-style columns are abstracted to the
integer instant at which they were written.
-/

namespace ATFi

namespace JS

/-- JavaScript `x || null` on a nullable string: `null`, `undefined` and the
empty string are falsy, any other string is returned unchanged. -/
def jsStringOrNull (o : Option String) : Option String :=
  match o with
  | some s => if s = "" then none else some s
  | none => none

/-- JavaScript `x || d` on a nullable string with a non-empty default. -/
def jsStringOr (o : Option String) (d : String) : String :=
  (jsStringOrNull o).getD d

/-- A Goldsky indexer event payload, with the 16 fields read by
`upsertEventFromGoldsky` (src/services/databaseService.js).  The JS field
`_gs_chain` / `_gs_gid` are written `gs_chain` / `gs_gid` here. -/
structure GoldskyEvent where
  vid : Int
  block : Int
  id : String
  block_number : Int
  timestamp : Int
  transaction_hash : String
  contract_id : String
  event_id : String
  vault : String
  organizer : String
  stake_amount : String
  max_participant : Int
  registration_deadline : Int
  event_date : Int
  gs_chain : String
  gs_gid : String
deriving DecidableEq

/-- A row of the `events_onchain` table (Goldsky structure): the event columns
plus the `created_at` / `updated_at` bookkeeping columns. -/
structure OnchainRow extends GoldskyEvent where
  created_at : Option Int
  updated_at : Option Int
deriving DecidableEq

/-- A row of the `events_metadata` table. -/
structure MetadataRow where
  event_id : String
  title : Option String
  description : Option String
  image_url : Option String
  organizer_profile_id : Option String
  location : Option String
  category : Option String
  tags : Option (List String)
  status : String
  current_participants : Int
  deposited_to_yield : Bool
  event_settled : Bool
  total_yield_earned : Int
  total_net_yield : Int
  created_at : Option Int
  updated_at : Option Int
deriving DecidableEq

/-- A row of the `profiles` table, restricted to the columns the JS service
reads (`SELECT id FROM profiles WHERE wallet_address = $1`). -/
structure ProfileRow where
  id : String
  wallet_address : String
deriving DecidableEq

/-- The database state seen by the JS service. -/
structure DBState where
  events_onchain : List OnchainRow
  events_metadata : List MetadataRow
  profiles : List ProfileRow
deriving DecidableEq

/-- The in-memory `EventMetadata` object (src/models/EventMetadata.js), after
its constructor has applied the `||` defaults. -/
structure EventMetadata where
  event_id : Option String
  title : Option String
  description : Option String
  image_url : Option String
  organizer_profile_id : Option String
  location : Option String
  category : Option String
  tags : List String
  status : String
  current_participants : Int
  deposited_to_yield : Bool
  event_settled : Bool
  total_yield_earned : Int
  total_net_yield : Int
  created_at : Option Int
  updated_at : Option Int
deriving DecidableEq

/-- The (possibly partial) `data` argument of the `EventMetadata` constructor:
every field may be `null`/`undefined`, modelled as `none`. -/
structure MetadataData where
  event_id : Option String := none
  title : Option String := none
  description : Option String := none
  image_url : Option String := none
  organizer_profile_id : Option String := none
  location : Option String := none
  category : Option String := none
  tags : Option (List String) := none
  status : Option String := none
  current_participants : Option Int := none
  deposited_to_yield : Option Bool := none
  event_settled : Option Bool := none
  total_yield_earned : Option Int := none
  total_net_yield : Option Int := none
  created_at : Option Int := none
  updated_at : Option Int := none
deriving DecidableEq

/-- The `EventMetadata` constructor (src/models/EventMetadata.js lines 7-29):
each field is `data.field || default`.  For numeric and boolean fields the JS
falsy fallback coincides with `Option.getD` (`0 || 0 = 0`,
`false || false = false`); for string fields the empty string also falls back,
which `jsStringOrNull` / `jsStringOr` capture. -/
def EventMetadata.ofData (d : MetadataData) : EventMetadata :=
  { event_id := jsStringOrNull d.event_id
    title := jsStringOrNull d.title
    description := jsStringOrNull d.description
    image_url := jsStringOrNull d.image_url
    organizer_profile_id := jsStringOrNull d.organizer_profile_id
    location := jsStringOrNull d.location
    category := jsStringOrNull d.category
    tags := d.tags.getD []
    status := jsStringOr d.status "REGISTRATION_OPEN"
    current_participants := d.current_participants.getD 0
    deposited_to_yield := d.deposited_to_yield.getD false
    event_settled := d.event_settled.getD false
    total_yield_earned := d.total_yield_earned.getD 0
    total_net_yield := d.total_net_yield.getD 0
    created_at := d.created_at
    updated_at := d.updated_at }

/-- `updateStatusBasedOnTime` (src/models/EventMetadata.js lines 80-92).
`now` is the wall clock in Unix seconds (`Math.floor(Date.now() / 1000)`),
made an explicit parameter. -/
def EventMetadata.updateStatusBasedOnTime (m : EventMetadata)
    (registrationDeadline eventDate now : Int) : EventMetadata :=
  let status :=
    if now < registrationDeadline then "REGISTRATION_OPEN"
    else if now < eventDate then
      (if m.current_participants > 0 then "REGISTRATION_CLOSED" else "VOIDED")
    else "LIVE"
  { m with status := status, updated_at := some now }

/-- `incrementParticipantCount` (src/models/EventMetadata.js lines 116-119). -/
def EventMetadata.incrementParticipantCount (m : EventMetadata) (now : Int) :
    EventMetadata :=
  { m with current_participants := m.current_participants + 1,
           updated_at := some now }

/-- `decrementParticipantCount` (src/models/EventMetadata.js lines 124-129):
only decrements (and only touches `updated_at`) when the count is positive. -/
def EventMetadata.decrementParticipantCount (m : EventMetadata) (now : Int) :
    EventMetadata :=
  if m.current_participants > 0 then
    { m with current_participants := m.current_participants - 1,
             updated_at := some now }
  else m

/-- One call against the in-memory participant counter, tagged with the
wall-clock instant at which it happens. -/
inductive CounterOp where
  | inc (now : Int)
  | dec (now : Int)
deriving DecidableEq

/-- Apply one counter call. -/
def EventMetadata.applyCounterOp (m : EventMetadata) : CounterOp → EventMetadata
  | .inc now => m.incrementParticipantCount now
  | .dec now => m.decrementParticipantCount now

/-- Apply a sequence of counter calls, oldest first. -/
def EventMetadata.applyCounterOps (m : EventMetadata) (ops : List CounterOp) :
    EventMetadata :=
  ops.foldl EventMetadata.applyCounterOp m

/-- The `events_onchain` upsert statement of `upsertEventFromGoldsky`
(src/services/databaseService.js lines 41-72): `INSERT ... ON CONFLICT
(transaction_hash) DO UPDATE SET updated_at = NOW() RETURNING *`.
Returns the new table contents together with the `RETURNING *` row. -/
def upsertOnchainStmt (now : Int) (ev : GoldskyEvent) (rows : List OnchainRow) :
    List OnchainRow × OnchainRow :=
  match rows.find? (fun r => r.transaction_hash = ev.transaction_hash) with
  | some r =>
      (rows.map (fun q =>
        if q.transaction_hash = ev.transaction_hash then
          { q with updated_at := some now } else q),
       { r with updated_at := some now })
  | none =>
      let r : OnchainRow :=
        { toGoldskyEvent := ev, created_at := some now, updated_at := some now }
      (rows ++ [r], r)

/-- The default `events_metadata` row inserted by the lazy-creation branch of
`upsertEventFromGoldsky` (lines 78-97).  The statement supplies only
`event_id`, `title` and `organizer_profile_id`; the remaining columns take the
table defaults (initial status `REGISTRATION_OPEN`, zero counters, §3/§4.1 of
the schema contract). -/
def defaultMetadataRow (eid title : String) (orgId : Option String) (now : Int) :
    MetadataRow :=
  { event_id := eid
    title := some title
    description := none
    image_url := none
    organizer_profile_id := orgId
    location := none
    category := none
    tags := none
    status := "REGISTRATION_OPEN"
    current_participants := 0
    deposited_to_yield := false
    event_settled := false
    total_yield_earned := 0
    total_net_yield := 0
    created_at := some now
    updated_at := some now }

/-- `upsertEventFromGoldsky` (src/services/databaseService.js lines 35-109),
the transactional body between `BEGIN` and `COMMIT`.  `fail k = true` makes the
`k`-th statement of the sequence throw (0 = on-chain upsert, 1 = metadata
existence check, 2 = organizer profile lookup, 3 = metadata insert,
4 = COMMIT); a thrown statement yields `Except.error`, which the `catch`
branch turns into a `ROLLBACK` (see `runUpsertFromGoldsky`). -/
def upsertEventFromGoldsky (fail : Nat → Bool) (now : Int) (ev : GoldskyEvent)
    (s : DBState) : Except Unit (DBState × OnchainRow) :=
  if fail 0 then .error () else
  let onch := (upsertOnchainStmt now ev s.events_onchain).1
  let ret := (upsertOnchainStmt now ev s.events_onchain).2
  let s1 : DBState := { s with events_onchain := onch }
  if fail 1 then .error () else
  if (s1.events_metadata.filter (fun m => m.event_id = ev.event_id)).length = 0 then
    if fail 2 then .error () else
    let orgId : Option String :=
      (s1.profiles.find? (fun p => p.wallet_address = ev.organizer)).map (fun p => p.id)
    if fail 3 then .error () else
    let md :=
      if s1.events_metadata.any (fun m => m.event_id = ev.event_id) then
        s1.events_metadata
      else
        s1.events_metadata ++
          [defaultMetadataRow ev.event_id ("Event " ++ ev.event_id) orgId now]
    if fail 4 then .error () else
    .ok ({ s1 with events_metadata := md }, ret)
  else
    if fail 4 then .error () else
    .ok (s1, ret)

/-- The caller-visible effect of one `upsertEventFromGoldsky` call: on success
the committed state and the returned row, on any thrown statement a `ROLLBACK`
to the pre-transaction state and a rethrown error (`none`). -/
def runUpsertFromGoldsky (fail : Nat → Bool) (now : Int) (ev : GoldskyEvent)
    (s : DBState) : DBState × Option OnchainRow :=
  match upsertEventFromGoldsky fail now ev s with
  | .ok (s1, r) => (s1, some r)
  | .error _ => (s, none)

/-- One element of the webhook response's `processed_events` list
(src/controllers/eventController.js lines 260-278). -/
structure ProcessedEntry where
  event_id : String
  vault : Option String
  status : String
deriving DecidableEq

/-- The batch loop of `handleGoldskyWebhook` (lines 262-278): each member is
upserted independently; a throw is caught per member and recorded as an
`error` entry while processing continues.  `fail i k` makes statement `k` of
member `i` throw. -/
def processGoldskyBatch (fail : Nat → Nat → Bool) (now : Int) :
    List GoldskyEvent → Nat → DBState → DBState × List ProcessedEntry
  | [], _, s => (s, [])
  | ev :: rest, i, s =>
    match upsertEventFromGoldsky (fail i) now ev s with
    | .ok (s1, saved) =>
        let next := processGoldskyBatch fail now rest (i + 1) s1
        (next.1, { event_id := saved.event_id, vault := some saved.vault,
                   status := "processed" } :: next.2)
    | .error _ =>
        let next := processGoldskyBatch fail now rest (i + 1) s
        (next.1, { event_id := ev.event_id, vault := none,
                   status := "error" } :: next.2)

/-- `handleGoldskyWebhook` (src/controllers/eventController.js lines 249-295)
on a well-formed payload (`events` is an array). -/
def handleGoldskyWebhook (fail : Nat → Nat → Bool) (now : Int)
    (events : List GoldskyEvent) (s : DBState) : DBState × List ProcessedEntry :=
  processGoldskyBatch fail now events 0 s

/-- The `Event` object built by `Event.fromDatabaseData` (src/models/Event.js):
the on-chain object (whose constructor is the identity on a full table row)
and the metadata object produced by the `EventMetadata` constructor. -/
structure CombinedEvent where
  onchain : OnchainRow
  metadata : EventMetadata
deriving DecidableEq

/-- `getCompleteEvent` (src/services/databaseService.js lines 114-186):
`events_onchain LEFT JOIN events_metadata ON eo.event_id = em.event_id::text
WHERE eo.event_id = $1`; no row at all gives `null`; a row with no matching
metadata gives NULL metadata columns, which the `EventMetadata` constructor
turns into defaults. -/
def getCompleteEvent (eventId : String) (s : DBState) : Option CombinedEvent :=
  match s.events_onchain.find? (fun r => r.event_id = eventId) with
  | none => none
  | some row =>
    let md? := s.events_metadata.find? (fun m => m.event_id = row.event_id)
    let mdata : MetadataData :=
      match md? with
      | some m =>
          { event_id := some row.event_id
            title := m.title
            description := m.description
            image_url := m.image_url
            organizer_profile_id := m.organizer_profile_id
            location := m.location
            category := m.category
            tags := m.tags
            status := some m.status
            current_participants := some m.current_participants
            deposited_to_yield := some m.deposited_to_yield
            event_settled := some m.event_settled
            total_yield_earned := some m.total_yield_earned
            total_net_yield := some m.total_net_yield
            created_at := m.created_at
            updated_at := m.updated_at }
      | none => { event_id := some row.event_id }
    some { onchain := row, metadata := EventMetadata.ofData mdata }

end JS

namespace Go

/-- A row of the Go-side `events_onchain` table, with the columns the Go
handlers read (models/event.go `EventOnchain`). -/
structure EventsOnchainRow where
  event_id : Int
  vault_address : String
  organizer_address : String
  stake_amount : String
  max_participant : Int
  registration_deadline : Int
  event_date : Int
deriving DecidableEq

/-- A row of the Go-side `events_metadata` table (models/event.go
`EventMetadata`, plus the `updated_at` column written by settlement). -/
structure EventsMetadataRow where
  event_id : Int
  title : String
  description : Option String
  image_url : Option String
  status : String
  updated_at : Option Int
deriving DecidableEq

/-- A row of the `profiles` table as the Go handlers see it. -/
structure ProfileRow where
  id : String
  wallet_address : String
  name : Option String
  email : Option String
deriving DecidableEq

/-- A row of the `participant` table (models `Participant`). -/
structure ParticipantRow where
  id : String
  event_id : Int
  user_id : String
  is_attend : Bool
  is_claim : Bool
deriving DecidableEq

/-- A row of the `checkins` table (models `CheckIn`). -/
structure CheckinRow where
  id : String
  event_id : String
  user_address : String
  qr_data : String
  checked_in_at : Int
  is_validated : Bool
  validated_at : Option Int
  validated_by : String
deriving DecidableEq

/-- A row of the legacy `events` table, restricted to the columns
`ValidateCheckIn` reads (`SELECT organizer_address FROM events WHERE id = $1`). -/
structure EventsRow where
  id : String
  organizer_address : String
deriving DecidableEq

/-- The database state seen by the Go handlers. -/
structure DB where
  events_onchain : List EventsOnchainRow
  events_metadata : List EventsMetadataRow
  profiles : List ProfileRow
  participant : List ParticipantRow
  checkins : List CheckinRow
  events : List EventsRow
deriving DecidableEq

/-- The request body of the Go `CreateEvent` handler (part_005 lines 38-44). -/
structure CreateEventReq where
  event_id : Int
  title : String
  description : String
  image_url : String
  organizer_address : String
deriving DecidableEq

/-- The `EventDetail` response payload (models/event.go). -/
structure EventDetail where
  event_id : Int
  vault_address : String
  organizer_address : String
  stake_amount : String
  max_participant : Int
  current_participants : Int
  registration_deadline : Int
  event_date : Int
  title : String
  status : String
  description : Option String
  image_url : Option String
  organizer_name : String
deriving DecidableEq

/-- Response bodies of `CreateEvent`: the 400 when the on-chain existence
check fails, the full joined detail, or (when the join at the requested id
returns nothing) just the metadata row that was written. -/
inductive CreateEventResp where
  | onchainMissing
  | createdDetail (d : EventDetail)
  | createdMeta (m : EventsMetadataRow)
deriving DecidableEq

/-- `CreateEvent` (part_005 lines 35-143), happy database path.  Faithfully
keeps the source's `req.EventID + 1` in the on-chain existence check and in
the metadata upsert, and the plain `req.EventID` in the final join query.
Returns the HTTP status, the response body and the new database state. -/
def createEventUpsertedRow (req : CreateEventReq) : EventsMetadataRow :=
  { event_id := req.event_id + 1
    title := req.title
    description := some req.description
    image_url := some req.image_url
    status := "REGISTRATION_OPEN"
    updated_at := none }

/-- The `DO UPDATE SET title, description, image_url, status` arm of the
`CreateEvent` metadata statement, applied to the row it conflicts with. -/
def createEventRowUpdate (req : CreateEventReq) (m : EventsMetadataRow) :
    EventsMetadataRow :=
  if m.event_id = req.event_id + 1 then
    { m with title := req.title
             description := some req.description
             image_url := some req.image_url
             status := "REGISTRATION_OPEN" }
  else m

/-- The metadata statement of `CreateEvent` (part_005 lines 67-91):
`INSERT INTO events_metadata ... VALUES (req.EventID + 1, ...) ON CONFLICT
(event_id) DO UPDATE SET title, description, image_url, status`. -/
def createEventMetadataUpsert (req : CreateEventReq)
    (l : List EventsMetadataRow) : List EventsMetadataRow :=
  if l.any (fun m => m.event_id = req.event_id + 1) then
    l.map (createEventRowUpdate req)
  else l ++ [createEventUpsertedRow req]

def CreateEvent (req : CreateEventReq) (s : DB) : Nat × CreateEventResp × DB :=
  let onchainExists := s.events_onchain.any (fun r => r.event_id = req.event_id + 1)
  if !onchainExists then (400, .onchainMissing, s)
  else
    let md := createEventMetadataUpsert req s.events_metadata
    let s1 : DB := { s with events_metadata := md }
    match s1.events_onchain.find? (fun r => r.event_id = req.event_id),
          s1.events_metadata.find? (fun m => m.event_id = req.event_id) with
    | some eo, some em =>
        (201,
         .createdDetail
           { event_id := eo.event_id
             vault_address := eo.vault_address
             organizer_address := eo.organizer_address
             stake_amount := eo.stake_amount
             max_participant := eo.max_participant
             current_participants := 0
             registration_deadline := eo.registration_deadline
             event_date := eo.event_date
             title := em.title
             status := em.status
             description := em.description
             image_url := em.image_url
             organizer_name := "" },
         s1)
    | _, _ => (201, .createdMeta (createEventUpsertedRow req), s1)

/-- `SettleEvent` (part_005 lines 349-389): reads the stored status, rejects a
missing event with 404 and a non-`LIVE` event with 400, otherwise writes
`SETTLED`. -/
def SettleEvent (now : Int) (eventID : Int) (s : DB) : Nat × DB :=
  match s.events_metadata.find? (fun m => m.event_id = eventID) with
  | none => (404, s)
  | some m =>
    if m.status ≠ "LIVE" then (400, s)
    else
      (200,
       { s with events_metadata := s.events_metadata.map (fun q =>
           if q.event_id = eventID then
             { q with status := "SETTLED", updated_at := some now }
           else q) })

/-- `ConfirmSettlement` (part_005 lines 392-428): after request binding it
updates the stored status to `SETTLED` unconditionally — no read of the
current status, no existence check (zero rows affected still answer 200). -/
def ConfirmSettlement (now : Int) (eventID : Int) (_transactionHash : String)
    (_attendedParticipants : List String) (s : DB) : Nat × DB :=
  (200,
   { s with events_metadata := s.events_metadata.map (fun q =>
       if q.event_id = eventID then
         { q with status := "SETTLED", updated_at := some now }
       else q) })

/-- The JSON body `GetProfile` answers with (part_002 lines 126-134). -/
structure ProfileResponse where
  id : String
  wallet_address : String
  name : Option String
  email : Option String
  balance : String
deriving DecidableEq

/-- `GetProfile` (part_002 lines 86-135).  `balanceResult` is the outcome of
the synchronous `getUSDCBalanceFromContract` call: on any contract-call error
the handler logs and falls back to the `"0"` balance initialised before the
call.  The handler performs no writes, so the state is returned unchanged. -/
def GetProfile (balanceResult : Except Unit String) (walletAddress : String)
    (s : DB) : Nat × Option ProfileResponse × DB :=
  match s.profiles.find? (fun p => p.wallet_address = walletAddress) with
  | none => (404, none, s)
  | some p =>
    let balance :=
      match balanceResult with
      | .ok b => b
      | .error _ => "0"
    (200,
     some { id := p.id, wallet_address := p.wallet_address, name := p.name,
            email := p.email, balance := balance },
     s)

/-- `events_onchain JOIN events_metadata ON eo.event_id = em.event_id` as the
Go `GetEvents` query performs it; `event_id` is the metadata table's key, so
the first matching row is the matching row. -/
def joinedEvents (s : DB) : List (EventsOnchainRow × EventsMetadataRow) :=
  s.events_onchain.filterMap (fun eo =>
    (s.events_metadata.find? (fun em => em.event_id = eo.event_id)).map
      (fun em => (eo, em)))

/-- Insert into a list already sorted descending by `key`. -/
def insertDescBy (key : α → Int) (x : α) : List α → List α
  | [] => [x]
  | y :: ys =>
    if key y ≤ key x then x :: y :: ys else y :: insertDescBy key x ys

/-- `ORDER BY ... DESC` on an integer key (stable insertion sort). -/
def sortByKeyDesc (key : α → Int) : List α → List α
  | [] => []
  | x :: xs => insertDescBy key x (sortByKeyDesc key xs)

/-- `GetEvents` (part_005 lines 145-275), happy database path: join, optional
`status` / `organizer` filters, `ORDER BY eo.event_id DESC`, `LIMIT/OFFSET`
paging (offset `(page-1)*limit`, in truncated `Nat` arithmetic), then one
synchronous contract call per listed event; `countResult v` is the outcome of
`getParticipantCountFromContract v` and any error degrades that event's
`current_participants` to the 0 it was initialised with.  Returns the HTTP
status, the `events` list and the `total` count. -/
def GetEvents (countResult : String → Except Unit Int) (page limit : Nat)
    (status organizer : String) (s : DB) : Nat × List EventDetail × Nat :=
  let filtered := (joinedEvents s).filter (fun pr =>
    (status = "" || pr.2.status = status) &&
    (organizer = "" || pr.1.organizer_address = organizer))
  let ordered := sortByKeyDesc (fun pr => pr.1.event_id) filtered
  let paged := (ordered.drop ((page - 1) * limit)).take limit
  let events := paged.map (fun pr =>
    let currentParticipants : Int :=
      if pr.1.vault_address ≠ "" then
        match countResult pr.1.vault_address with
        | .ok n => n
        | .error _ => 0
      else 0
    { event_id := pr.1.event_id
      vault_address := pr.1.vault_address
      organizer_address := pr.1.organizer_address
      stake_amount := pr.1.stake_amount
      max_participant := pr.1.max_participant
      current_participants := currentParticipants
      registration_deadline := pr.1.registration_deadline
      event_date := pr.1.event_date
      title := pr.2.title
      status := pr.2.status
      description := pr.2.description
      image_url := pr.2.image_url
      organizer_name := "" })
  (200, events, filtered.length)

/-- The request body of `ValidateCheckIn` (part_000 `ValidateCheckInRequest`). -/
structure ValidateCheckInReq where
  checkin_id : String
  is_valid : Bool
deriving DecidableEq

/-- `ValidateCheckIn` (part_003 lines 173-285).  After the `checkins` row is
updated, the propagation into `participant` is best-effort: a missing profile,
a failed `UPDATE participant` (`updFails`), or a failed `INSERT INTO
participant` (`insFails`, or a non-numeric `checkins.event_id`, which cannot
be encoded into the `int8` column) is only logged; the handler still answers
200 with the updated check-in row.  `newId` stands for the UUID the database
generates for an inserted `participant` row.  Note the propagation `UPDATE`
filters on `user_id` alone, as in the source.  Returns the HTTP status, the
response body and the new database state. -/
def ValidateCheckIn (updFails insFails : Bool) (newId : String) (now : Int)
    (organizerAddress : String) (req : ValidateCheckInReq) (s : DB) :
    Nat × Option CheckinRow × DB :=
  if organizerAddress = "" then (401, none, s)
  else
    match s.checkins.find? (fun c => c.id = req.checkin_id) with
    | none => (404, none, s)
    | some ck0 =>
      match s.events.find? (fun e => e.id = ck0.event_id) with
      | none => (500, none, s)
      | some evr =>
        if evr.organizer_address ≠ organizerAddress then (403, none, s)
        else
          let ck1 : CheckinRow :=
            { ck0 with is_validated := req.is_valid
                       validated_at := some (if req.is_valid then now else 0)
                       validated_by := organizerAddress }
          let s1 : DB :=
            { s with checkins := s.checkins.map (fun c =>
                if c.id = req.checkin_id then ck1 else c) }
          if req.is_valid then
            match s1.profiles.find? (fun p => p.wallet_address = ck1.user_address) with
            | none => (200, some ck1, s1)
            | some p =>
              if updFails then (200, some ck1, s1)
              else
                let affected :=
                  (s1.participant.filter (fun pr => pr.user_id = p.id)).length
                if affected = 0 then
                  match insFails, ck1.event_id.toInt? with
                  | false, some eid =>
                      (200, some ck1,
                       { s1 with participant := s1.participant ++
                           [{ id := newId, event_id := eid, user_id := p.id,
                              is_attend := true, is_claim := false }] })
                  | _, _ => (200, some ck1, s1)
                else
                  (200, some ck1,
                   { s1 with participant := s1.participant.map (fun pr =>
                       if pr.user_id = p.id then { pr with is_attend := true }
                       else pr) })
          else (200, some ck1, s1)

end Go

/-! Sample values used by witnesses and counterexamples. -/

/-- A metadata object built by the constructor from empty data (all defaults);
in particular `current_participants = 0`. -/
def sampleMeta0 : JS.EventMetadata := .ofData {}

/-- A metadata object with one participant. -/
def sampleMeta1 : JS.EventMetadata := .ofData { current_participants := some 1 }

/-- A concrete Goldsky event payload. -/
def sampleGoldsky : JS.GoldskyEvent :=
  { vid := 1
    block := 17
    id := "g1"
    block_number := 100
    timestamp := 1000
    transaction_hash := "0xaaa"
    contract_id := "c1"
    event_id := "42"
    vault := "0xv42"
    organizer := "0xorg"
    stake_amount := "10"
    max_participant := 50
    registration_deadline := 2000
    event_date := 3000
    gs_chain := "base-sepolia"
    gs_gid := "gid1" }

/-- The `events_onchain` row for `sampleGoldsky`. -/
def sampleOnchainRow : JS.OnchainRow :=
  { toGoldskyEvent := sampleGoldsky, created_at := some 1000, updated_at := some 1000 }

/-- A JS-side database holding the on-chain row for event `"42"` and no
metadata row at all. -/
def sampleDBonchainOnly : JS.DBState :=
  { events_onchain := [sampleOnchainRow], events_metadata := [], profiles := [] }

/-- A Go-side `events_metadata` row for event 7 in `REGISTRATION_OPEN`. -/
def sampleGoMetaRow : Go.EventsMetadataRow :=
  { event_id := 7
    title := "Event 7"
    description := none
    image_url := none
    status := "REGISTRATION_OPEN"
    updated_at := none }

/-- A Go-side database whose only metadata row is `sampleGoMetaRow`. -/
def sampleGoDB : Go.DB :=
  { events_onchain := []
    events_metadata := [sampleGoMetaRow]
    profiles := []
    participant := []
    checkins := []
    events := [] }

/-- A Go-side on-chain row for event 43. -/
def sampleGoOnchainRow43 : Go.EventsOnchainRow :=
  { event_id := 43
    vault_address := "0xv43"
    organizer_address := "0xorg"
    stake_amount := "10"
    max_participant := 50
    registration_deadline := 2000
    event_date := 3000 }

/-- A Go-side database whose only on-chain row is event 43 and which has no
metadata rows. -/
def sampleGoDB9 : Go.DB :=
  { events_onchain := [sampleGoOnchainRow43]
    events_metadata := []
    profiles := []
    participant := []
    checkins := []
    events := [] }

/-- A Go `CreateEvent` request for event 42. -/
def sampleCreateReq : Go.CreateEventReq :=
  { event_id := 42
    title := "My Event"
    description := "a description"
    image_url := "http://img"
    organizer_address := "0xorg" }

/-- A not-yet-validated check-in row. -/
def sampleCheckin : Go.CheckinRow :=
  { id := "ck1"
    event_id := "5"
    user_address := "0xuser"
    qr_data := "qr-payload"
    checked_in_at := 50
    is_validated := false
    validated_at := none
    validated_by := "" }

/-- The legacy `events` row owning `sampleCheckin`. -/
def sampleEventsRow : Go.EventsRow := { id := "5", organizer_address := "0xorg" }

/-- A Go-side database with one check-in and its event, but no profile for the
checked-in wallet (so the participant propagation cannot find a profile). -/
def sampleC7DB : Go.DB :=
  { events_onchain := []
    events_metadata := []
    profiles := []
    participant := []
    checkins := [sampleCheckin]
    events := [sampleEventsRow] }

/-- The `n`-th sample Goldsky payload: distinct event identifier, transaction
hash and vault per index. -/
def mkSampleGoldsky (n : Nat) : JS.GoldskyEvent :=
  { sampleGoldsky with
      event_id := toString n
      transaction_hash := "0xtx" ++ toString n
      vault := "0xv" ++ toString n }

/-- A batch of ten distinct Goldsky payloads. -/
def tenGoldsky : List JS.GoldskyEvent := (List.range 10).map mkSampleGoldsky

/-- An empty JS-side database. -/
def emptyJSDB : JS.DBState :=
  { events_onchain := [], events_metadata := [], profiles := [] }

/-- A profile row for wallet `"0xw"`. -/
def sampleC8Profile : Go.ProfileRow :=
  { id := "u1", wallet_address := "0xw", name := none, email := none }

/-- A Go-side metadata row matching `sampleGoOnchainRow43`. -/
def sampleGoMetaRow43 : Go.EventsMetadataRow :=
  { event_id := 43
    title := "Event 43"
    description := none
    image_url := none
    status := "REGISTRATION_OPEN"
    updated_at := none }

/-- A Go-side database with one profile and one joined event, used to exercise
the contract-call degradation paths. -/
def sampleC8DB : Go.DB :=
  { events_onchain := [sampleGoOnchainRow43]
    events_metadata := [sampleGoMetaRow43]
    profiles := [sampleC8Profile]
    participant := []
    checkins := []
    events := [] }

end ATFi

open ATFi

/-- C1 counterexample: the claim instantiates its particular scenario at every
`T1 > T0`, but at `T0 = 0`, `T1 = 1` (which satisfies `T1 > T0`) the derived
status at `T0 + 1` with zero participants is `LIVE`, not `VOIDED`, because
`T0 + 1` is not before the event date. -/
theorem claim_C1_counterexample :
    (0 : Int) < 1 ∧ sampleMeta0.current_participants = 0 ∧
    (sampleMeta0.updateStatusBasedOnTime 0 1 (0 + 1)).status = "LIVE" ∧
    "LIVE" ≠ "VOIDED" := by decide

/-- C1 (amended): `updateStatusBasedOnTime` derives `REGISTRATION_OPEN` before
the registration deadline, `REGISTRATION_CLOSED` (positive participant count)
or `VOIDED` (zero participant count) between deadline and event date, and
`LIVE` from the event date on; and for `T0 + 1 < T1` the status at `T0 - 1` is
`REGISTRATION_OPEN`, at `T0 + 1` with zero participants `VOIDED`, and at
`T1 + 1` `LIVE`. -/
theorem claim_C1_time_derived_status (m m0 : JS.EventMetadata)
    (rd ed now T0 T1 : Int) (hrd : rd < ed) (hT : T0 + 1 < T1)
    (h0 : m0.current_participants = 0) :
    ((now < rd → (m.updateStatusBasedOnTime rd ed now).status = "REGISTRATION_OPEN") ∧
     (rd ≤ now → now < ed → 0 < m.current_participants →
        (m.updateStatusBasedOnTime rd ed now).status = "REGISTRATION_CLOSED") ∧
     (rd ≤ now → now < ed → m.current_participants = 0 →
        (m.updateStatusBasedOnTime rd ed now).status = "VOIDED") ∧
     (ed ≤ now → (m.updateStatusBasedOnTime rd ed now).status = "LIVE")) ∧
    ((m0.updateStatusBasedOnTime T0 T1 (T0 - 1)).status = "REGISTRATION_OPEN" ∧
     (m0.updateStatusBasedOnTime T0 T1 (T0 + 1)).status = "VOIDED" ∧
     (m0.updateStatusBasedOnTime T0 T1 (T1 + 1)).status = "LIVE") := by
  have heval : ∀ (m : JS.EventMetadata) (rd ed now : Int),
      (m.updateStatusBasedOnTime rd ed now).status =
        if now < rd then "REGISTRATION_OPEN"
        else if now < ed then
          (if m.current_participants > 0 then "REGISTRATION_CLOSED" else "VOIDED")
        else "LIVE" := fun _ _ _ _ => rfl
  refine ⟨⟨?_, ?_, ?_, ?_⟩, ?_, ?_, ?_⟩
  · intro h1
    rw [heval, if_pos h1]
  · intro h1 h2 h3
    rw [heval, if_neg (by omega), if_pos h2, if_pos h3]
  · intro h1 h2 h3
    rw [heval, if_neg (by omega), if_pos h2, if_neg (by omega)]
  · intro h1
    rw [heval, if_neg (by omega), if_neg (by omega)]
  · rw [heval, if_pos (by omega)]
  · rw [heval, if_neg (by omega), if_pos (by omega), if_neg (by omega)]
  · rw [heval, if_neg (by omega), if_neg (by omega)]

/-- C1 witness: the amended theorem applied at `rd = 10`, `ed = 20`,
`now = 5`, `T0 = 10`, `T1 = 20`. -/
theorem claim_C1_witness :
    ((10 : Int) < 20 ∧ (10 : Int) + 1 < 20 ∧ sampleMeta0.current_participants = 0) ∧
    (((5 : Int) < 10 →
        (sampleMeta1.updateStatusBasedOnTime 10 20 5).status = "REGISTRATION_OPEN") ∧
     ((10 : Int) ≤ 5 → (5 : Int) < 20 → 0 < sampleMeta1.current_participants →
        (sampleMeta1.updateStatusBasedOnTime 10 20 5).status = "REGISTRATION_CLOSED") ∧
     ((10 : Int) ≤ 5 → (5 : Int) < 20 → sampleMeta1.current_participants = 0 →
        (sampleMeta1.updateStatusBasedOnTime 10 20 5).status = "VOIDED") ∧
     ((20 : Int) ≤ 5 → (sampleMeta1.updateStatusBasedOnTime 10 20 5).status = "LIVE")) ∧
    ((sampleMeta0.updateStatusBasedOnTime 10 20 (10 - 1)).status = "REGISTRATION_OPEN" ∧
     (sampleMeta0.updateStatusBasedOnTime 10 20 (10 + 1)).status = "VOIDED" ∧
     (sampleMeta0.updateStatusBasedOnTime 10 20 (20 + 1)).status = "LIVE") :=
  ⟨⟨by decide, by decide, by decide⟩,
   (claim_C1_time_derived_status sampleMeta1 sampleMeta0 10 20 5 10 20
      (by decide) (by decide) (by decide)).1,
   (claim_C1_time_derived_status sampleMeta1 sampleMeta0 10 20 5 10 20
      (by decide) (by decide) (by decide)).2⟩

/-- One counter call keeps the participant count nonnegative. -/
theorem applyCounterOp_nonneg (m : JS.EventMetadata) (op : JS.CounterOp)
    (h : 0 ≤ m.current_participants) :
    0 ≤ (m.applyCounterOp op).current_participants := by
  cases op with
  | inc now =>
      simp only [JS.EventMetadata.applyCounterOp,
        JS.EventMetadata.incrementParticipantCount]
      omega
  | dec now =>
      simp only [JS.EventMetadata.applyCounterOp,
        JS.EventMetadata.decrementParticipantCount]
      split_ifs with h1
      · simp only
        omega
      · exact h

/-- C10: starting from a nonnegative participant count, any sequence of
increment/decrement calls keeps the count nonnegative, and a decrement at
count zero leaves the whole object (counter and `updated_at` included)
unchanged. -/
theorem claim_C10_counter_never_negative (m : JS.EventMetadata)
    (ops : List JS.CounterOp) (now : Int) (h : 0 ≤ m.current_participants) :
    0 ≤ (m.applyCounterOps ops).current_participants ∧
    (m.current_participants = 0 → m.decrementParticipantCount now = m) := by
  constructor
  · induction ops generalizing m with
    | nil => simpa [JS.EventMetadata.applyCounterOps] using h
    | cons op ops ih =>
        have hstep := applyCounterOp_nonneg m op h
        simpa [JS.EventMetadata.applyCounterOps, List.foldl_cons] using
          ih (m.applyCounterOp op) hstep
  · intro h0
    simp [JS.EventMetadata.decrementParticipantCount, h0]

/-- C10 witness: the invariant applied to the default metadata object and the
call sequence increment, decrement, decrement. -/
theorem claim_C10_witness :
    (0 : Int) ≤ sampleMeta0.current_participants ∧
    (0 ≤ (sampleMeta0.applyCounterOps [.inc 1, .dec 2, .dec 3]).current_participants ∧
     (sampleMeta0.current_participants = 0 →
        sampleMeta0.decrementParticipantCount 5 = sampleMeta0)) :=
  ⟨by decide,
   claim_C10_counter_never_negative sampleMeta0 [.inc 1, .dec 2, .dec 3] 5 (by decide)⟩

/-- C2 counterexample: with the on-chain row for event `"42"` present and no
metadata row ever created, `getCompleteEvent` does return a combined record
with status `REGISTRATION_OPEN`, but its title is `null` — the `EventMetadata`
constructor defaults a missing title to `null`, not to a placeholder. -/
theorem claim_C2_counterexample :
    sampleDBonchainOnly.events_metadata = [] ∧
    (JS.getCompleteEvent "42" sampleDBonchainOnly).isSome = true ∧
    (JS.getCompleteEvent "42" sampleDBonchainOnly).map (fun ev => ev.metadata.status)
      = some "REGISTRATION_OPEN" ∧
    (JS.getCompleteEvent "42" sampleDBonchainOnly).map (fun ev => ev.metadata.title)
      = some none := by decide

/-- C2 (amended): whenever the on-chain row for an event identifier exists and
no metadata row matches it, `getCompleteEvent` returns a combined event record
(not `null`) whose synthesized metadata has status `REGISTRATION_OPEN` and a
`null` title. -/
theorem claim_C2_synthesized_default (s : JS.DBState) (eid : String)
    (row : JS.OnchainRow)
    (hfind : s.events_onchain.find? (fun r => r.event_id = eid) = some row)
    (hmd : s.events_metadata.find? (fun m => m.event_id = row.event_id) = none) :
    ∃ ev : JS.CombinedEvent, JS.getCompleteEvent eid s = some ev ∧
      ev.onchain = row ∧ ev.metadata.status = "REGISTRATION_OPEN" ∧
      ev.metadata.title = none := by
  have hres : JS.getCompleteEvent eid s =
      some { onchain := row,
             metadata := JS.EventMetadata.ofData { event_id := some row.event_id } } := by
    simp only [JS.getCompleteEvent, hfind, hmd]
  exact ⟨_, hres, rfl, rfl, rfl⟩

/-- C2 witness: the amended theorem applied to the concrete one-row database. -/
theorem claim_C2_witness :
    (sampleDBonchainOnly.events_onchain.find? (fun r => r.event_id = "42")
        = some sampleOnchainRow ∧
     sampleDBonchainOnly.events_metadata.find?
        (fun m => m.event_id = sampleOnchainRow.event_id) = none) ∧
    (∃ ev : JS.CombinedEvent,
       JS.getCompleteEvent "42" sampleDBonchainOnly = some ev ∧
       ev.onchain = sampleOnchainRow ∧ ev.metadata.status = "REGISTRATION_OPEN" ∧
       ev.metadata.title = none) :=
  ⟨⟨by decide, by decide⟩,
   claim_C2_synthesized_default sampleDBonchainOnly "42" sampleOnchainRow
     (by decide) (by decide)⟩

/-- C6 counterexample: event 7 is stored with status `REGISTRATION_OPEN`
(not `LIVE`), yet the `ConfirmSettlement` settlement endpoint answers 200 and
overwrites the stored status with `SETTLED`. -/
theorem claim_C6_counterexample :
    (sampleGoDB.events_metadata.find? (fun q => q.event_id = 7)).map
        (fun q => q.status) = some "REGISTRATION_OPEN" ∧
    "REGISTRATION_OPEN" ≠ "LIVE" ∧
    (Go.ConfirmSettlement 100 7 "0xtx" [] sampleGoDB).1 = 200 ∧
    (((Go.ConfirmSettlement 100 7 "0xtx" [] sampleGoDB).2).events_metadata.find?
        (fun q => q.event_id = 7)).map (fun q => q.status) = some "SETTLED" := by
  decide

/-- C6 (amended): the `SettleEvent` endpoint rejects settling an event whose
stored status is not `LIVE` with a 400 client-error outcome and leaves the
database unchanged; the claim's blanket guarantee fails only for
`ConfirmSettlement`, which writes `SETTLED` unconditionally. -/
theorem claim_C6_settle_rejects_nonlive (now eventID : Int) (s : Go.DB)
    (m : Go.EventsMetadataRow)
    (hfind : s.events_metadata.find? (fun q => q.event_id = eventID) = some m)
    (hst : m.status ≠ "LIVE") :
    Go.SettleEvent now eventID s = (400, s) := by
  simp only [Go.SettleEvent, hfind]
  rw [if_pos hst]

/-- C6 witness: the amended theorem applied to event 7 in
`REGISTRATION_OPEN`. -/
theorem claim_C6_witness :
    (sampleGoDB.events_metadata.find? (fun q => q.event_id = 7)
        = some sampleGoMetaRow ∧ sampleGoMetaRow.status ≠ "LIVE") ∧
    Go.SettleEvent 100 7 sampleGoDB = (400, sampleGoDB) :=
  ⟨⟨by decide, by decide⟩,
   claim_C6_settle_rejects_nonlive 100 7 sampleGoDB sampleGoMetaRow
     (by decide) (by decide)⟩

/-- The conflict-update arm of the `CreateEvent` metadata statement never
changes a row's key. -/
theorem createEventRowUpdate_event_id (req : Go.CreateEventReq)
    (m : Go.EventsMetadataRow) :
    (Go.createEventRowUpdate req m).event_id = m.event_id := by
  unfold Go.createEventRowUpdate
  split_ifs <;> rfl

/-- Applying the conflict-update arm across the table leaves the rows keyed by
the requested identifier untouched (it only rewrites rows keyed by the
requested identifier plus one). -/
theorem filter_map_createEventRowUpdate (req : Go.CreateEventReq)
    (l : List Go.EventsMetadataRow) :
    (l.map (Go.createEventRowUpdate req)).filter
        (fun m => m.event_id = req.event_id)
      = l.filter (fun m => m.event_id = req.event_id) := by
  induction l with
  | nil => rfl
  | cons a l ih =>
      simp only [List.map_cons, List.filter_cons, createEventRowUpdate_event_id]
      by_cases ha : a.event_id = req.event_id
      · have hne : ¬ a.event_id = req.event_id + 1 := by omega
        have hupd : Go.createEventRowUpdate req a = a := by
          unfold Go.createEventRowUpdate
          rw [if_neg hne]
        simp [ha, hupd, ih]
      · simp [ha, ih]

/-- The `CreateEvent` metadata upsert leaves the rows keyed by the requested
identifier exactly as they were. -/
theorem createEventMetadataUpsert_filter (req : Go.CreateEventReq)
    (l : List Go.EventsMetadataRow) :
    (Go.createEventMetadataUpsert req l).filter
        (fun m => m.event_id = req.event_id)
      = l.filter (fun m => m.event_id = req.event_id) := by
  unfold Go.createEventMetadataUpsert
  split_ifs with hany
  · exact filter_map_createEventRowUpdate req l
  · rw [List.filter_append]
    have hid : (Go.createEventUpsertedRow req).event_id = req.event_id + 1 := rfl
    have hone : (List.filter (fun m => m.event_id = req.event_id)
        [Go.createEventUpsertedRow req]) = [] := by
      simp only [List.filter_cons, List.filter_nil]
      rw [if_neg]
      simp only [hid, decide_eq_true_eq]
      omega
    rw [hone, List.append_nil]

/-- After the `CreateEvent` metadata upsert the table holds a row keyed by the
requested identifier plus one, carrying the request's title and the
`REGISTRATION_OPEN` status. -/
theorem createEventMetadataUpsert_exists (req : Go.CreateEventReq)
    (l : List Go.EventsMetadataRow) :
    ∃ m ∈ Go.createEventMetadataUpsert req l,
      m.event_id = req.event_id + 1 ∧ m.title = req.title ∧
      m.status = "REGISTRATION_OPEN" := by
  unfold Go.createEventMetadataUpsert
  split_ifs with hany
  · obtain ⟨m0, hm0, hid⟩ := List.any_eq_true.mp hany
    have hid' : m0.event_id = req.event_id + 1 := by simpa using hid
    have hupd : Go.createEventRowUpdate req m0 =
        { m0 with title := req.title
                  description := some req.description
                  image_url := some req.image_url
                  status := "REGISTRATION_OPEN" } := by
      unfold Go.createEventRowUpdate
      rw [if_pos hid']
    refine ⟨Go.createEventRowUpdate req m0, List.mem_map_of_mem _ hm0, ?_⟩
    rw [hupd]
    exact ⟨hid', rfl, rfl⟩
  · exact ⟨Go.createEventUpsertedRow req, by simp, rfl, rfl, rfl⟩

/-- C9: in the Go `CreateEvent` handler, a request for event identifier `N`
passes its on-chain existence check against `N + 1`, writes (or overwrites)
the metadata row under `N + 1`, leaves the metadata rows keyed by `N` exactly
as they were, and queries the complete-event detail it returns under `N`;
a request whose on-chain row exists only at `N` (not at `N + 1`) is rejected
outright. -/
theorem claim_C9_create_event_off_by_one (req : Go.CreateEventReq) (s : Go.DB)
    (hpre : s.events_onchain.any (fun r => r.event_id = req.event_id + 1) = true) :
    (Go.CreateEvent req s).1 = 201 ∧
    ((Go.CreateEvent req s).2.2).events_metadata
      = Go.createEventMetadataUpsert req s.events_metadata ∧
    (∃ m ∈ ((Go.CreateEvent req s).2.2).events_metadata,
       m.event_id = req.event_id + 1 ∧ m.title = req.title ∧
       m.status = "REGISTRATION_OPEN") ∧
    ((Go.CreateEvent req s).2.2).events_metadata.filter
        (fun m => m.event_id = req.event_id)
      = s.events_metadata.filter (fun m => m.event_id = req.event_id) ∧
    (∀ d, (Go.CreateEvent req s).2.1 = Go.CreateEventResp.createdDetail d →
       d.event_id = req.event_id) ∧
    (∀ s2 : Go.DB,
       s2.events_onchain.any (fun r => r.event_id = req.event_id + 1) = false →
       Go.CreateEvent req s2 = (400, Go.CreateEventResp.onchainMissing, s2)) := by
  have hstate : (Go.CreateEvent req s).2.2
      = { s with events_metadata := Go.createEventMetadataUpsert req s.events_metadata } := by
    simp only [Go.CreateEvent, hpre, Bool.not_true, Bool.false_eq_true, if_false]
    split <;> rfl
  have hcode : (Go.CreateEvent req s).1 = 201 := by
    simp only [Go.CreateEvent, hpre, Bool.not_true, Bool.false_eq_true, if_false]
    split <;> rfl
  refine ⟨hcode, by rw [hstate], ?_, ?_, ?_, ?_⟩
  · rw [show ((Go.CreateEvent req s).2.2).events_metadata
        = Go.createEventMetadataUpsert req s.events_metadata from by rw [hstate]]
    exact createEventMetadataUpsert_exists req s.events_metadata
  · rw [show ((Go.CreateEvent req s).2.2).events_metadata
        = Go.createEventMetadataUpsert req s.events_metadata from by rw [hstate]]
    exact createEventMetadataUpsert_filter req s.events_metadata
  · intro d hd
    simp only [Go.CreateEvent, hpre, Bool.not_true, Bool.false_eq_true, if_false] at hd
    rcases h1 : s.events_onchain.find? (fun r => r.event_id = req.event_id)
      with _ | eo
    · rw [h1] at hd
      rcases h2 : (Go.createEventMetadataUpsert req s.events_metadata).find?
          (fun m => m.event_id = req.event_id) with _ | em <;>
        simp [h2] at hd
    · rw [h1] at hd
      rcases h2 : (Go.createEventMetadataUpsert req s.events_metadata).find?
          (fun m => m.event_id = req.event_id) with _ | em
      · simp [h2] at hd
      · simp only [h2] at hd
        have heo : eo.event_id = req.event_id := by
          have := List.find?_some h1
          simpa using this
        cases hd
        exact heo
  · intro s2 h2
    simp [Go.CreateEvent, h2]

/-- C9 witness: the theorem applied to a request for event 42 against a
database whose only on-chain row is event 43. -/
theorem claim_C9_witness :
    sampleGoDB9.events_onchain.any
        (fun r => r.event_id = sampleCreateReq.event_id + 1) = true ∧
    ((Go.CreateEvent sampleCreateReq sampleGoDB9).1 = 201 ∧
     ((Go.CreateEvent sampleCreateReq sampleGoDB9).2.2).events_metadata
       = Go.createEventMetadataUpsert sampleCreateReq sampleGoDB9.events_metadata ∧
     (∃ m ∈ ((Go.CreateEvent sampleCreateReq sampleGoDB9).2.2).events_metadata,
        m.event_id = sampleCreateReq.event_id + 1 ∧
        m.title = sampleCreateReq.title ∧ m.status = "REGISTRATION_OPEN") ∧
     ((Go.CreateEvent sampleCreateReq sampleGoDB9).2.2).events_metadata.filter
         (fun m => m.event_id = sampleCreateReq.event_id)
       = sampleGoDB9.events_metadata.filter
           (fun m => m.event_id = sampleCreateReq.event_id) ∧
     (∀ d, (Go.CreateEvent sampleCreateReq sampleGoDB9).2.1
           = Go.CreateEventResp.createdDetail d →
        d.event_id = sampleCreateReq.event_id) ∧
     (∀ s2 : Go.DB,
        s2.events_onchain.any
            (fun r => r.event_id = sampleCreateReq.event_id + 1) = false →
        Go.CreateEvent sampleCreateReq s2
          = (400, Go.CreateEventResp.onchainMissing, s2))) :=
  ⟨by decide,
   claim_C9_create_event_off_by_one sampleCreateReq sampleGoDB9 (by decide)⟩

/-- C7: once `ValidateCheckIn` has updated the check-in row, the participant
propagation is best-effort — whatever the propagation does (missing profile,
failing `UPDATE participant`, failing `INSERT INTO participant`), the handler
answers 200 with the updated check-in record and the `checkins` update stays
in place (only the `participant` table can differ between outcomes). -/
theorem claim_C7_checkin_propagation_best_effort
    (updFails insFails : Bool) (newId : String) (now : Int) (org : String)
    (req : Go.ValidateCheckInReq) (s : Go.DB) (ck0 : Go.CheckinRow)
    (evr : Go.EventsRow)
    (horg : org ≠ "")
    (hck : s.checkins.find? (fun c => c.id = req.checkin_id) = some ck0)
    (hev : s.events.find? (fun e => e.id = ck0.event_id) = some evr)
    (hauth : evr.organizer_address = org)
    (hvalid : req.is_valid = true) :
    (Go.ValidateCheckIn updFails insFails newId now org req s).1 = 200 ∧
    (Go.ValidateCheckIn updFails insFails newId now org req s).2.1
      = some { ck0 with is_validated := true, validated_at := some now,
                        validated_by := org } ∧
    ((Go.ValidateCheckIn updFails insFails newId now org req s).2.2).checkins
      = s.checkins.map (fun c =>
          if c.id = req.checkin_id then
            { ck0 with is_validated := true, validated_at := some now,
                       validated_by := org }
          else c) := by
  have key : ∃ part : List Go.ParticipantRow,
      Go.ValidateCheckIn updFails insFails newId now org req s =
        (200,
         some { ck0 with is_validated := true, validated_at := some now,
                         validated_by := org },
         { s with
             checkins := s.checkins.map (fun c =>
               if c.id = req.checkin_id then
                 { ck0 with is_validated := true, validated_at := some now,
                            validated_by := org }
               else c),
             participant := part }) := by
    unfold Go.ValidateCheckIn
    rw [if_neg horg]
    simp only [hck, hev, hauth, hvalid, ne_eq, not_true_eq_false,
      Bool.false_eq_true, if_false, if_true, ite_true, ite_false]
    repeat' split
    all_goals exact ⟨_, rfl⟩
  obtain ⟨part, hkey⟩ := key
  rw [hkey]
  exact ⟨rfl, rfl, rfl⟩

/-- C7 witness: the theorem applied to a database where the checked-in wallet
has no profile, so the participant propagation fails and is swallowed. -/
theorem claim_C7_witness :
    ("0xorg" : String) ≠ "" ∧
    sampleC7DB.checkins.find? (fun c => c.id = "ck1") = some sampleCheckin ∧
    sampleC7DB.events.find? (fun e => e.id = sampleCheckin.event_id)
      = some sampleEventsRow ∧
    sampleC7DB.profiles = [] ∧
    ((Go.ValidateCheckIn false false "pid" 60 "0xorg"
        { checkin_id := "ck1", is_valid := true } sampleC7DB).1 = 200 ∧
     (Go.ValidateCheckIn false false "pid" 60 "0xorg"
        { checkin_id := "ck1", is_valid := true } sampleC7DB).2.1
       = some { sampleCheckin with is_validated := true, validated_at := some 60,
                                   validated_by := "0xorg" } ∧
     ((Go.ValidateCheckIn false false "pid" 60 "0xorg"
        { checkin_id := "ck1", is_valid := true } sampleC7DB).2.2).checkins
       = sampleC7DB.checkins.map (fun c =>
           if c.id = "ck1" then
             { sampleCheckin with is_validated := true, validated_at := some 60,
                                  validated_by := "0xorg" }
           else c)) :=
  ⟨by decide, by decide, by decide, rfl,
   claim_C7_checkin_propagation_best_effort false false "pid" 60 "0xorg"
     { checkin_id := "ck1", is_valid := true } sampleC7DB sampleCheckin
     sampleEventsRow (by decide) (by decide) (by decide) (by decide) (by decide)⟩

/-- C8: when the outbound contract call fails, `GetProfile` still answers 200
with the profile and a zero balance and leaves the database untouched, and
`GetEvents` still answers 200 with every listed event's participant count
degraded to zero. -/
theorem claim_C8_contract_failure_degrades :
    (∀ (w : String) (s : Go.DB) (p : Go.ProfileRow),
        s.profiles.find? (fun q => q.wallet_address = w) = some p →
        Go.GetProfile (Except.error ()) w s =
          (200, some { id := p.id, wallet_address := p.wallet_address,
                       name := p.name, email := p.email, balance := "0" }, s)) ∧
    (∀ (page limit : Nat) (st org : String) (s : Go.DB),
        (Go.GetEvents (fun _ => Except.error ()) page limit st org s).1 = 200 ∧
        (∀ d ∈ (Go.GetEvents (fun _ => Except.error ()) page limit st org s).2.1,
           d.current_participants = 0)) := by
  constructor
  · intro w s p hp
    simp only [Go.GetProfile, hp]
  · intro page limit st org s
    refine ⟨rfl, ?_⟩
    intro d hd
    simp only [Go.GetEvents] at hd
    obtain ⟨pr, hpr, hfd⟩ := List.mem_map.mp hd
    rw [← hfd]
    split_ifs <;> rfl

/-- C8 witness: both degradation paths exercised on the concrete database with
one profile and one joined event, under an always-failing contract client. -/
theorem claim_C8_witness :
    Go.GetProfile (Except.error ()) "0xw" sampleC8DB
      = (200,
         some { id := sampleC8Profile.id,
                wallet_address := sampleC8Profile.wallet_address,
                name := sampleC8Profile.name, email := sampleC8Profile.email,
                balance := "0" },
         sampleC8DB) ∧
    ((Go.GetEvents (fun _ => Except.error ()) 1 10 "" "" sampleC8DB).1 = 200 ∧
     (∀ d ∈ (Go.GetEvents (fun _ => Except.error ()) 1 10 "" "" sampleC8DB).2.1,
        d.current_participants = 0)) :=
  ⟨claim_C8_contract_failure_degrades.1 "0xw" sampleC8DB sampleC8Profile (by decide),
   claim_C8_contract_failure_degrades.2 1 10 "" "" sampleC8DB⟩

/-- After the on-chain upsert statement, a row carrying the event's
transaction hash is in the table. -/
theorem upsertOnchainStmt_exists_hash (now : Int) (ev : JS.GoldskyEvent)
    (rows : List JS.OnchainRow) :
    ∃ r ∈ (JS.upsertOnchainStmt now ev rows).1,
      r.transaction_hash = ev.transaction_hash := by
  unfold JS.upsertOnchainStmt
  rcases hfind : rows.find? (fun r => r.transaction_hash = ev.transaction_hash)
    with _ | r0
  · simp only [hfind]
    exact ⟨{ toGoldskyEvent := ev, created_at := some now, updated_at := some now },
      by simp, rfl⟩
  · simp only [hfind]
    have hr0 : r0.transaction_hash = ev.transaction_hash := by
      simpa using List.find?_some hfind
    exact ⟨{ r0 with updated_at := some now },
      List.mem_map.mpr ⟨r0, List.mem_of_find?_eq_some hfind, by rw [if_pos hr0]⟩,
      hr0⟩

/-- The on-chain upsert statement never loses a row carrying a given
transaction hash. -/
theorem upsertOnchainStmt_preserves_hash (now : Int) (ev : JS.GoldskyEvent)
    (rows : List JS.OnchainRow) (h : String)
    (hex : ∃ r ∈ rows, r.transaction_hash = h) :
    ∃ r ∈ (JS.upsertOnchainStmt now ev rows).1, r.transaction_hash = h := by
  obtain ⟨r, hr, hh⟩ := hex
  unfold JS.upsertOnchainStmt
  rcases hfind : rows.find? (fun q => q.transaction_hash = ev.transaction_hash)
    with _ | r0
  · simp only [hfind]
    exact ⟨r, by simp [hr], hh⟩
  · simp only [hfind]
    by_cases hrt : r.transaction_hash = ev.transaction_hash
    · exact ⟨{ r with updated_at := some now },
        List.mem_map.mpr ⟨r, hr, by rw [if_pos hrt]⟩, hh⟩
    · exact ⟨r, List.mem_map.mpr ⟨r, hr, by rw [if_neg hrt]⟩, hh⟩

/-- The conflict-update arm of the on-chain upsert leaves the number of rows
carrying the conflicting hash unchanged. -/
theorem upsertOnchain_map_countP (now : Int) (h : String)
    (rows : List JS.OnchainRow) :
    ((rows.map (fun q => if q.transaction_hash = h then
        { q with updated_at := some now } else q)).countP
      (fun r => r.transaction_hash = h))
      = rows.countP (fun r => r.transaction_hash = h) := by
  induction rows with
  | nil => rfl
  | cons a l ih =>
      by_cases ha : a.transaction_hash = h
      · simp [List.countP_cons, ha, ih]
      · simp [List.countP_cons, ha, ih]

/-- Shape of a fully successful `upsertEventFromGoldsky` call: the on-chain
table is the upsert statement's output, the metadata table holds a row for the
event identifier, and the `RETURNING *` row is returned. -/
theorem upsert_noFail_shape (now : Int) (ev : JS.GoldskyEvent) (s : JS.DBState) :
    ((JS.runUpsertFromGoldsky (fun _ => false) now ev s).1).events_onchain
      = (JS.upsertOnchainStmt now ev s.events_onchain).1 ∧
    (∃ m ∈ ((JS.runUpsertFromGoldsky (fun _ => false) now ev s).1).events_metadata,
       m.event_id = ev.event_id) ∧
    (JS.runUpsertFromGoldsky (fun _ => false) now ev s).2
      = some (JS.upsertOnchainStmt now ev s.events_onchain).2 := by
  unfold JS.runUpsertFromGoldsky JS.upsertEventFromGoldsky
  simp only [Bool.false_eq_true, if_false]
  split_ifs with hlen hany
  · exfalso
    have hfil := List.length_eq_zero.mp hlen
    obtain ⟨x, hx, hpx⟩ := List.any_eq_true.mp hany
    have := List.filter_eq_nil_iff.mp hfil x hx
    simp_all
  · refine ⟨rfl, ?_, rfl⟩
    exact ⟨JS.defaultMetadataRow ev.event_id ("Event " ++ ev.event_id)
      ((s.profiles.find? (fun p => p.wallet_address = ev.organizer)).map
        (fun p => p.id)) now, by simp, rfl⟩
  · refine ⟨rfl, ?_, rfl⟩
    have hpos : 0 < (s.events_metadata.filter (fun m => m.event_id = ev.event_id)).length :=
      Nat.pos_of_ne_zero hlen
    obtain ⟨x, hx⟩ := List.exists_mem_of_length_pos hpos
    have hx' := List.mem_filter.mp hx
    exact ⟨x, hx'.1, by simpa using hx'.2⟩

/-- A successful `upsertEventFromGoldsky` call — under any failure oracle —
commits the on-chain upsert statement's output. -/
theorem upsert_ok_onchain (fail : Nat → Bool) (now : Int) (ev : JS.GoldskyEvent)
    (s s1 : JS.DBState) (ret : JS.OnchainRow)
    (h : JS.upsertEventFromGoldsky fail now ev s = .ok (s1, ret)) :
    s1.events_onchain = (JS.upsertOnchainStmt now ev s.events_onchain).1 := by
  simp only [JS.upsertEventFromGoldsky] at h
  split_ifs at h <;>
    first
      | exact Except.noConfusion h
      | (injection h with h1; injection h1 with ha hb; rw [← ha])

/-- C3: delivering the same Goldsky event twice (each call fully successful)
is idempotent on the stored state — after the second call the number of
on-chain rows carrying the event's transaction hash is unchanged (the conflict
arm only touches `updated_at`), the on-chain table's size is unchanged, and
the metadata table is exactly what the first call left (the lazy-creation
branch is skipped because a metadata row for the event identifier already
exists). -/
theorem claim_C3_upsert_idempotent (now1 now2 : Int) (ev : JS.GoldskyEvent)
    (s : JS.DBState) :
    ((JS.runUpsertFromGoldsky (fun _ => false) now2 ev
        ((JS.runUpsertFromGoldsky (fun _ => false) now1 ev s).1)).1).events_onchain.countP
        (fun r => r.transaction_hash = ev.transaction_hash)
      = (((JS.runUpsertFromGoldsky (fun _ => false) now1 ev s).1).events_onchain).countP
          (fun r => r.transaction_hash = ev.transaction_hash) ∧
    ((JS.runUpsertFromGoldsky (fun _ => false) now2 ev
        ((JS.runUpsertFromGoldsky (fun _ => false) now1 ev s).1)).1).events_onchain.length
      = (((JS.runUpsertFromGoldsky (fun _ => false) now1 ev s).1).events_onchain).length ∧
    ((JS.runUpsertFromGoldsky (fun _ => false) now2 ev
        ((JS.runUpsertFromGoldsky (fun _ => false) now1 ev s).1)).1).events_metadata
      = ((JS.runUpsertFromGoldsky (fun _ => false) now1 ev s).1).events_metadata := by
  obtain ⟨honch1, hmd1, hret1⟩ := upsert_noFail_shape now1 ev s
  set s1 := (JS.runUpsertFromGoldsky (fun _ => false) now1 ev s).1 with hs1def
  have hhash : ∃ r ∈ s1.events_onchain, r.transaction_hash = ev.transaction_hash := by
    rw [honch1]
    exact upsertOnchainStmt_exists_hash now1 ev s.events_onchain
  rcases hfind2 : s1.events_onchain.find?
      (fun r => r.transaction_hash = ev.transaction_hash) with _ | r2
  · exfalso
    obtain ⟨r, hr, hrh⟩ := hhash
    have := List.find?_eq_none.mp hfind2 r hr
    simp_all
  · have hlen2 : ¬ (s1.events_metadata.filter
        (fun m => m.event_id = ev.event_id)).length = 0 := by
      obtain ⟨m, hm, hmid⟩ := hmd1
      intro hzero
      have hfil := List.length_eq_zero.mp hzero
      have := List.filter_eq_nil_iff.mp hfil m hm
      simp_all
    have hrun2 : JS.runUpsertFromGoldsky (fun _ => false) now2 ev s1 =
        ({ s1 with events_onchain := s1.events_onchain.map (fun q =>
            if q.transaction_hash = ev.transaction_hash then
              { q with updated_at := some now2 } else q) },
         some { r2 with updated_at := some now2 }) := by
      unfold JS.runUpsertFromGoldsky JS.upsertEventFromGoldsky JS.upsertOnchainStmt
      simp only [Bool.false_eq_true, if_false, hfind2]
      rw [if_neg hlen2]
    rw [hrun2]
    exact ⟨upsertOnchain_map_countP now2 ev.transaction_hash s1.events_onchain,
      List.length_map _ _, rfl⟩

/-- C4: the transactional upsert is all-or-nothing.  Whatever statement of the
sequence the failure oracle makes throw, the caller-visible outcome is either
a rollback to exactly the pre-transaction state (with the error rethrown) or
the fully committed result of the all-successful run — never a state with one
of the two writes but not the other. -/
theorem claim_C4_upsert_atomic (fail : Nat → Bool) (now : Int)
    (ev : JS.GoldskyEvent) (s : JS.DBState) :
    ((JS.runUpsertFromGoldsky fail now ev s).2 = none →
       (JS.runUpsertFromGoldsky fail now ev s).1 = s) ∧
    (JS.runUpsertFromGoldsky fail now ev s = (s, none) ∨
     JS.runUpsertFromGoldsky fail now ev s
       = JS.runUpsertFromGoldsky (fun _ => false) now ev s) := by
  have hsome : (JS.runUpsertFromGoldsky (fun _ => false) now ev s).2
      = some (JS.upsertOnchainStmt now ev s.events_onchain).2 :=
    (upsert_noFail_shape now ev s).2.2
  have hdisj : JS.runUpsertFromGoldsky fail now ev s = (s, none) ∨
      JS.runUpsertFromGoldsky fail now ev s
        = JS.runUpsertFromGoldsky (fun _ => false) now ev s := by
    by_cases f0 : fail 0 <;> by_cases f1 : fail 1 <;> by_cases f2 : fail 2 <;>
      by_cases f3 : fail 3 <;> by_cases f4 : fail 4 <;>
      (unfold JS.runUpsertFromGoldsky JS.upsertEventFromGoldsky
       simp only [f0, f1, f2, f3, f4, Bool.false_eq_true, eq_self_iff_true,
         if_true, if_false]
       split_ifs <;> first | exact Or.inl rfl | exact Or.inr rfl | simp)
  refine ⟨?_, hdisj⟩
  intro hnone
  rcases hdisj with h | h
  · rw [h]
  · rw [h] at hnone
    rw [hsome] at hnone
    exact absurd hnone (by simp)

/-- A fully successful transactional upsert never throws. -/
theorem upsert_noFail_ne_error (now : Int) (ev : JS.GoldskyEvent)
    (s : JS.DBState) (e : Unit) :
    JS.upsertEventFromGoldsky (fun _ => false) now ev s ≠ .error e := by
  intro h
  unfold JS.upsertEventFromGoldsky at h
  simp only [Bool.false_eq_true, if_false] at h
  split_ifs at h

/-- A transactional upsert whose very first statement throws is rolled back
with the error rethrown. -/
theorem upsert_constTrue (now : Int) (ev : JS.GoldskyEvent) (s : JS.DBState) :
    JS.upsertEventFromGoldsky (fun _ => true) now ev s = .error () := by
  unfold JS.upsertEventFromGoldsky
  simp

/-- The webhook batch loop records one response entry per batch member,
whatever fails. -/
theorem processBatch_length (fail : Nat → Nat → Bool) (now : Int) :
    ∀ (events : List JS.GoldskyEvent) (i : Nat) (s : JS.DBState),
      ((JS.processGoldskyBatch fail now events i s).2).length = events.length := by
  intro events
  induction events with
  | nil => intro i s; rfl
  | cons ev rest ih =>
      intro i s
      unfold JS.processGoldskyBatch
      rcases hup : JS.upsertEventFromGoldsky (fail i) now ev s with e | ⟨s1, saved⟩ <;>
        simp [hup, ih]

/-- The webhook batch loop never loses an on-chain row carrying a given
transaction hash. -/
theorem processBatch_preserves_hash (fail : Nat → Nat → Bool) (now : Int) :
    ∀ (events : List JS.GoldskyEvent) (i : Nat) (s : JS.DBState) (h : String),
      (∃ r ∈ s.events_onchain, r.transaction_hash = h) →
      ∃ r ∈ ((JS.processGoldskyBatch fail now events i s).1).events_onchain,
        r.transaction_hash = h := by
  intro events
  induction events with
  | nil => intro i s h hex; exact hex
  | cons ev rest ih =>
      intro i s h hex
      unfold JS.processGoldskyBatch
      rcases hup : JS.upsertEventFromGoldsky (fail i) now ev s with e | ⟨s1, saved⟩
      · simp only [hup]
        exact ih (i + 1) s h hex
      · simp only [hup]
        refine ih (i + 1) s1 h ?_
        rw [upsert_ok_onchain (fail i) now ev s s1 saved hup]
        exact upsertOnchainStmt_preserves_hash now ev s.events_onchain h hex

/-- Index-wise response characterization of the batch loop under a per-member
failure oracle `bad`: entry `k` reports `error` exactly when member `k`
failed, and `processed` otherwise — one entry per member, independent of the
other members' outcomes. -/
theorem processBatch_status (bad : Nat → Bool) (now : Int) :
    ∀ (events : List JS.GoldskyEvent) (i : Nat) (s : JS.DBState) (k : Nat),
      ((((JS.processGoldskyBatch (fun j _ => bad j) now events i s).2).get? k).map
          (fun e => e.status))
        = if k < events.length then
            some (if bad (i + k) then "error" else "processed")
          else none := by
  intro events
  induction events with
  | nil =>
      intro i s k
      simp [JS.processGoldskyBatch]
  | cons ev rest ih =>
      intro i s k
      unfold JS.processGoldskyBatch
      rcases hb : bad i
      · simp only [hb]
        rcases hup : JS.upsertEventFromGoldsky (fun _ => false) now ev s
          with e | ⟨s1, saved⟩
        · exact absurd hup (upsert_noFail_ne_error now ev s e)
        · simp only [hup]
          cases k with
          | zero => simp [hb]
          | succ k =>
              have harith : i + 1 + k = i + (k + 1) := by omega
              simp only [List.get?_cons_succ, ih (i + 1) s1 k, harith,
                List.length_cons, Nat.add_lt_add_iff_right]
      · simp only [hb]
        rw [upsert_constTrue now ev s]
        cases k with
        | zero => simp [hb]
        | succ k =>
            have harith : i + 1 + k = i + (k + 1) := by omega
            simp only [List.get?_cons_succ, ih (i + 1) s k, harith,
              List.length_cons, Nat.add_lt_add_iff_right]

/-- Every batch member that does not fail ends up persisted: its on-chain row
(keyed by its transaction hash) is present in the final database state. -/
theorem processBatch_persists (bad : Nat → Bool) (now : Int) :
    ∀ (events : List JS.GoldskyEvent) (i : Nat) (s : JS.DBState) (k : Nat)
      (ev0 : JS.GoldskyEvent),
      events.get? k = some ev0 → bad (i + k) = false →
      ∃ r ∈ ((JS.processGoldskyBatch (fun j _ => bad j) now events i s).1).events_onchain,
        r.transaction_hash = ev0.transaction_hash := by
  intro events
  induction events with
  | nil =>
      intro i s k ev0 hget hbad
      exact absurd hget (by simp)
  | cons ev rest ih =>
      intro i s k ev0 hget hbad
      unfold JS.processGoldskyBatch
      rcases hb : bad i
      · simp only [hb]
        rcases hup : JS.upsertEventFromGoldsky (fun _ => false) now ev s
          with e | ⟨s1, saved⟩
        · exact absurd hup (upsert_noFail_ne_error now ev s e)
        · simp only [hup]
          cases k with
          | zero =>
              have hev : ev0 = ev := by
                simpa using hget.symm
              subst hev
              refine processBatch_preserves_hash _ now rest (i + 1) s1
                ev0.transaction_hash ?_
              rw [upsert_ok_onchain (fun _ => false) now ev0 s s1 saved hup]
              exact upsertOnchainStmt_exists_hash now ev0 s.events_onchain
          | succ k =>
              have hbad' : bad (i + 1 + k) = false := by
                rw [show i + 1 + k = i + (k + 1) from by omega]
                exact hbad
              exact ih (i + 1) s1 k ev0 (by simpa using hget) hbad'
      · simp only [hb]
        rw [upsert_constTrue now ev s]
        cases k with
        | zero =>
            rw [show i + 0 = i from by omega] at hbad
            rw [hb] at hbad
            exact absurd hbad (by simp)
        | succ k =>
            have hbad' : bad (i + 1 + k) = false := by
              rw [show i + 1 + k = i + (k + 1) from by omega]
              exact hbad
            exact ih (i + 1) s k ev0 (by simpa using hget) hbad'

/-- C5: each batch member is processed independently — under any per-member
failure oracle the webhook answers one entry per member (never aborting the
batch), entry `k` reads `error` exactly when member `k` failed and
`processed` otherwise, and every non-failing member's on-chain row is in the
final database.  In particular, in a batch of ten events where exactly member
3 is malformed, the response holds ten entries — nine `processed`, exactly one
`error` — and nine on-chain rows are persisted. -/
theorem claim_C5_batch_partial_failure :
    (∀ (bad : Nat → Bool) (now : Int) (events : List JS.GoldskyEvent)
       (s : JS.DBState),
       ((JS.handleGoldskyWebhook (fun j _ => bad j) now events s).2).length
         = events.length ∧
       (∀ k, ((((JS.handleGoldskyWebhook (fun j _ => bad j) now events s).2).get? k).map
             (fun e => e.status))
           = if k < events.length then
               some (if bad k then "error" else "processed")
             else none) ∧
       (∀ k (ev0 : JS.GoldskyEvent), events.get? k = some ev0 → bad k = false →
          ∃ r ∈ ((JS.handleGoldskyWebhook (fun j _ => bad j) now events s).1).events_onchain,
            r.transaction_hash = ev0.transaction_hash)) ∧
    (((JS.handleGoldskyWebhook (fun j _ => j == 3) 100 tenGoldsky emptyJSDB).2).length
        = 10 ∧
     ((JS.handleGoldskyWebhook (fun j _ => j == 3) 100 tenGoldsky emptyJSDB).2).countP
        (fun e => e.status = "error") = 1 ∧
     ((JS.handleGoldskyWebhook (fun j _ => j == 3) 100 tenGoldsky emptyJSDB).2).countP
        (fun e => e.status = "processed") = 9 ∧
     (((JS.handleGoldskyWebhook (fun j _ => j == 3) 100 tenGoldsky emptyJSDB).1).events_onchain).length
        = 9) := by
  constructor
  · intro bad now events s
    refine ⟨processBatch_length _ now events 0 s, ?_, ?_⟩
    · intro k
      simpa using processBatch_status bad now events 0 s k
    · intro k ev0 hget hbad
      exact processBatch_persists bad now events 0 s k ev0 hget (by simpa using hbad)
  · exact ⟨by decide, by decide, by decide, by decide⟩

/-- C5 witness: the general theorem applied to the concrete ten-event batch —
member 0 does not fail, so its on-chain row is persisted. -/
theorem claim_C5_witness :
    ∃ r ∈ ((JS.handleGoldskyWebhook (fun j _ => j == 3) 100 tenGoldsky
        emptyJSDB).1).events_onchain,
      r.transaction_hash = (mkSampleGoldsky 0).transaction_hash :=
  (claim_C5_batch_partial_failure.1 (fun j => j == 3) 100 tenGoldsky emptyJSDB).2.2
    0 (mkSampleGoldsky 0) (by decide) (by decide)

